import Mathlib

/-!
Verification of the network-time-clock sketch
(`src/network-time-clock/network-time-clock.ino`).

The sketch configures two New Zealand daylight-saving rules, converts the
NTP-provided UTC epoch time to local time, schedules periodic re-syncs in
`loop`, and formats two fixed-width 16-character display lines.  The
timezone conversion itself lives in the external `Timezone` library, which
is not part of this repository; its behaviour is modelled here from the
design spec (§4.1).  Everything else (day suffix, display-line layout,
sync scheduling) is embedded directly from the sketch.

Instants are seconds since the Unix epoch, represented as `Nat` (the NTP
epoch times handled by the sketch are positive).  Display buffers are
`List Char`; `memcpy` into a buffer is modelled by `writeAt`.
-/

/-! ## Calendar arithmetic (civil calendar, proleptic Gregorian) -/

/-- Modelled from the spec: leap-year test of the civil calendar, needed by
the "leap years affect only day-of-month arithmetic" rule logic (§4.1). -/
def isLeap (y : Nat) : Bool :=
  y % 4 == 0 && (y % 100 != 0 || y % 400 == 0)

/-- Modelled from the spec: number of days in month `m` (1–12) of year `y`. -/
def daysInMonth (y m : Nat) : Nat :=
  if m = 2 then (if isLeap y then 29 else 28)
  else if m = 4 ∨ m = 6 ∨ m = 9 ∨ m = 11 then 30
  else 31

/-- Modelled from the spec: days since 1970-01-01 of civil date `y-m-d`
(valid for years ≥ 1970, months 1–12); closed-form era/day-of-era
computation over the 400-year Gregorian cycle. -/
def daysFromCivil (y m d : Nat) : Nat :=
  let yAdj := if m ≤ 2 then y - 1 else y
  let era := yAdj / 400
  let yoe := yAdj % 400
  let mp := if 2 < m then m - 3 else m + 9
  let doy := (153 * mp + 2) / 5 + (d - 1)
  let doe := yoe * 365 + yoe / 4 - yoe / 100 + doy
  era * 146097 + doe - 719468

/-- Modelled from the spec: civil date `(year, month, day)` of a count of
days since 1970-01-01; inverse of `daysFromCivil` on valid dates. -/
def civilFromDays (z : Nat) : Nat × Nat × Nat :=
  let z := z + 719468
  let era := z / 146097
  let doe := z % 146097
  let yoe := (doe - doe / 1460 + doe / 36524 - doe / 146096) / 365
  let y := yoe + era * 400
  let doy := doe - (365 * yoe + yoe / 4 - yoe / 100)
  let mp := (5 * doy + 2) / 153
  let d := doy - (153 * mp + 2) / 5 + 1
  let m := if mp < 10 then mp + 3 else mp - 9
  (if m ≤ 2 then y + 1 else y, m, d)

/-- Seconds since the Unix epoch of the civil instant `y-m-d hh:mm:ss`. -/
def epochSecs (y m d hh mm ss : Nat) : Nat :=
  daysFromCivil y m d * 86400 + hh * 3600 + mm * 60 + ss

/-- Day of week of a civil date, `0` = Sunday (1970-01-01 was a Thursday). -/
def dayOfWeek (y m d : Nat) : Nat :=
  (daysFromCivil y m d + 4) % 7

/-! ## Timezone / DST rules

The sketch builds `TimeChangeRule nzDST = {"NZDT", Last, Sun, Sep, 2, 780}`
and `nzSTD = {"NZST", First, Sun, Apr, 3, 720}` and hands them to the
external `Timezone` library (lines 55–57 of the sketch). -/

/-- Modelled from the spec: which occurrence of the weekday in the month a
rule names (`ordinal: enum {First, Second, Third, Fourth, Last}`, §3). -/
inductive WeekOrdinal
  | first
  | second
  | third
  | fourth
  | last
deriving DecidableEq

/-- Modelled from the spec: a `DstRule` — short label, ordinal, weekday
(0 = Sunday), month (1–12), hour-of-day, and minutes-from-UTC offset
in effect after the transition (§3). -/
structure TimeChangeRule where
  abbrevStr : String
  week : WeekOrdinal
  wday : Nat
  month : Nat
  hourOfDay : Nat
  offsetMinutes : Nat
deriving DecidableEq

/-- Modelled from the spec: a `TimezoneSpec`, exactly two rules, one tagged
DST (summer) and one tagged STD (standard) (§3). -/
structure TimezoneSpec where
  dstRule : TimeChangeRule
  stdRule : TimeChangeRule
deriving DecidableEq

/-- `TimeChangeRule nzDST = {"NZDT", Last, Sun, Sep, 2, 780}` (line 55). -/
def nzDST : TimeChangeRule :=
  { abbrevStr := "NZDT", week := .last, wday := 0, month := 9,
    hourOfDay := 2, offsetMinutes := 780 }

/-- `TimeChangeRule nzSTD = {"NZST", First, Sun, Apr, 3, 720}` (line 56). -/
def nzSTD : TimeChangeRule :=
  { abbrevStr := "NZST", week := .first, wday := 0, month := 4,
    hourOfDay := 3, offsetMinutes := 720 }

/-- `Timezone nzTime(nzDST, nzSTD)` (line 57). -/
def nzTime : TimezoneSpec := { dstRule := nzDST, stdRule := nzSTD }

/-- Modelled from the spec: day-of-month of the Nth (or last) occurrence of
the rule's weekday in its month of year `y` (§4.1 step 2, §9 "Nth weekday
of month" note). -/
def ruleDayOfMonth (r : TimeChangeRule) (y : Nat) : Nat :=
  let firstOcc := 1 + (r.wday + 7 - dayOfWeek y r.month 1) % 7
  match r.week with
  | .first => firstOcc
  | .second => firstOcc + 7
  | .third => firstOcc + 14
  | .fourth => firstOcc + 21
  | .last =>
    let lastDay := daysInMonth y r.month
    lastDay - (dayOfWeek y r.month lastDay + 7 - r.wday) % 7

/-- Modelled from the spec: the rule's transition instant of year `y`
expressed in the local time in effect immediately before the switch
(§4.1 step 2: weekday occurrence combined with `hourOfDay`). -/
def ruleTransitionLocal (r : TimeChangeRule) (y : Nat) : Nat :=
  epochSecs y r.month (ruleDayOfMonth r y) r.hourOfDay 0 0

/-- Modelled from the spec: UTC instant of the DST-start transition of year
`y` — the DST rule's local instant minus the *other* (standard) rule's
offset (§4.1 step 2). -/
def dstTransitionUtc (tz : TimezoneSpec) (y : Nat) : Nat :=
  ruleTransitionLocal tz.dstRule y - tz.stdRule.offsetMinutes * 60

/-- Modelled from the spec: UTC instant of the DST-end transition of year
`y` — the standard rule's local instant minus the DST rule's offset
(§4.1 step 2). -/
def stdTransitionUtc (tz : TimezoneSpec) (y : Nat) : Nat :=
  ruleTransitionLocal tz.stdRule y - tz.dstRule.offsetMinutes * 60

/-- Modelled from the spec: whether DST is active at the UTC instant `utc`
(§4.1 step 3).  For a northern-style year (DST start before DST end) DST
spans `[dstStart, stdStart)`; for a southern-style year (the reference
region) DST spans the year boundary, so it is active exactly outside
`[stdStart, dstStart)` — the wrap-aware comparison of §4.1. -/
def utcIsDst (tz : TimezoneSpec) (utc : Nat) : Bool :=
  let y := (civilFromDays (utc / 86400)).1
  let dstStart := dstTransitionUtc tz y
  let stdStart := stdTransitionUtc tz y
  if dstStart < stdStart then
    decide (dstStart ≤ utc ∧ utc < stdStart)
  else
    !decide (stdStart ≤ utc ∧ utc < dstStart)

/-- Modelled from the spec: a `LocalTimeResult` (§3). -/
structure LocalTimeResult where
  localInstant : Nat
  activeRule : TimeChangeRule
  isDst : Bool
deriving DecidableEq

/-- Modelled from the spec: `resolve(utc, tz)` — `localInstant = utc +
(isDst ? dstRule.offsetMinutes : stdRule.offsetMinutes) * 60`, with
`activeRule` the selected rule (§4.1 steps 4–5; `nzTime.toLocal` /
`locIsDST` uses in the sketch at lines 111–115 and 137). -/
def resolve (utc : Nat) (tz : TimezoneSpec) : LocalTimeResult :=
  let d := utcIsDst tz utc
  { localInstant := utc + (if d then tz.dstRule.offsetMinutes else tz.stdRule.offsetMinutes) * 60,
    activeRule := if d then tz.dstRule else tz.stdRule,
    isDst := d }

/-- UTC instant of `2025-09-28T01:59:59` New Zealand standard time
(standard offset +720 min), one second before the 02:00 DST-start
boundary of the last Sunday of September 2025. -/
def nzBoundary2025 : Nat :=
  epochSecs 2025 9 28 1 59 59 - 720 * 60

/-! ## Claims C1 and C2 -/

/-- Claim C1: for every UTC instant, the local instant produced by the
timezone conversion minus the UTC instant equals exactly one of the two
configured offsets converted to seconds — `780 * 60` when DST is reported
active, `720 * 60` otherwise — and never any other value. -/
theorem resolve_offset_exact (utc : Nat) :
    (resolve utc nzTime).localInstant - utc
      = (if (resolve utc nzTime).isDst then 780 * 60 else 720 * 60) ∧
    ((resolve utc nzTime).localInstant - utc = 780 * 60 ∨
      (resolve utc nzTime).localInstant - utc = 720 * 60) := by
  unfold resolve
  cases utcIsDst nzTime utc <;>
    simp [nzTime, nzDST, nzSTD]

/-! ## Sync scheduling (`loop`, lines 241–255)

`millis()` and `lastSync` are `unsigned long` (32-bit) values; the check
`millis() - lastSync > ntpUpdateInterval` subtracts modulo `2^32`.  Ticks
are modelled as naturals below `2^32`. -/

/-- `2^32`, the modulus of `unsigned long` arithmetic on the target. -/
def U32 : Nat := 4294967296

/-- `const unsigned long ntpUpdateInterval = 600000` (line 43). -/
def ntpUpdateInterval : Nat := 600000

/-- `unsigned long lastSync = 0` (line 235): the initial value of the
last-sync timestamp before any successful sync. -/
def lastSyncInit : Nat := 0

/-- 32-bit wrapping subtraction `a - b` for `a b < 2^32`, as performed by
`millis() - lastSync`. -/
def subWrap (a b : Nat) : Nat :=
  (a + U32 - b % U32) % U32

/-- The sync-due check of `loop` (line 245):
`millis() - lastSync > ntpUpdateInterval`. -/
def isSyncDue (lastSync now : Nat) : Bool :=
  decide (ntpUpdateInterval < subWrap now lastSync)

/-- The two diagnostic records the sync branch of `loop` can emit:
`printSyncInfo()` on success (line 250) and the
`"NTP sync failed"` serial line on failure (line 253). -/
inductive SyncEvent
  | syncInfo
  | syncFailed
deriving DecidableEq

/-- The sync branch of `loop` (lines 245–255): when the due check passes,
attempt a sync; on success set `lastSync = millis()` and print sync info,
on failure leave `lastSync` unchanged and log the failure.  Returns the
new `lastSync` and the emitted diagnostic record, if any. -/
def syncStep (lastSync now : Nat) (fetchOk : Bool) : Nat × Option SyncEvent :=
  if isSyncDue lastSync now then
    if fetchOk then (now, some .syncInfo)
    else (lastSync, some .syncFailed)
  else (lastSync, none)

/-- Claim C2: for the reference New Zealand rules, conversion at the UTC
instant corresponding to `2025-09-28T01:59:59` standard time reports STD,
and at the instant one second later — the exact 02:00 transition instant,
which belongs to the new rule (inclusive `≥`) — reports DST. -/
theorem resolve_nz_dst_boundary_2025 :
    (resolve nzBoundary2025 nzTime).isDst = false ∧
    (resolve nzBoundary2025 nzTime).activeRule = nzSTD ∧
    (resolve (nzBoundary2025 + 1) nzTime).isDst = true ∧
    (resolve (nzBoundary2025 + 1) nzTime).activeRule = nzDST ∧
    nzBoundary2025 + 1 = dstTransitionUtc nzTime 2025 := by
  decide

/-! ## Claims C3, C4, C5 -/

/-- Claim C3: after a successful sync recorded at tick `T`, the sync-due
check is false for every tick `t` with `t - T ≤ interval` and becomes true
exactly when `t - T > interval` (strict inequality), for the configured
interval 600000 ms. -/
theorem isSyncDue_iff_interval_elapsed (T t : Nat) (hTt : T ≤ t) (ht : t < U32) :
    isSyncDue T t = true ↔ ntpUpdateInterval < t - T := by
  unfold isSyncDue subWrap U32 ntpUpdateInterval at *
  simp only [decide_eq_true_eq]
  omega

/-- Witness for C3 at `T = 5`: tick `600005` (elapsed = interval) is not
due; tick `600006` (elapsed = interval + 1) is due. -/
theorem isSyncDue_iff_interval_elapsed_witness :
    isSyncDue 5 600005 = false ∧ isSyncDue 5 600006 = true :=
  ⟨by rw [← Bool.not_eq_true, isSyncDue_iff_interval_elapsed 5 600005 (by decide) (by decide)]
      decide,
   (isSyncDue_iff_interval_elapsed 5 600006 (by decide) (by decide)).mpr (by decide)⟩

/-- Claim C4: a failed sync attempt leaves the last-successful-sync
timestamp unchanged, so on the very next check after a failure the
sync-due condition is still true — failures never push back the retry
clock — and the only state change on failure is the emitted diagnostic
failure record. -/
theorem syncStep_failure_no_backoff (T t tNext : Nat) (hTt : T ≤ t) (hNext : t ≤ tNext)
    (hw : tNext < U32) (hdue : isSyncDue T t = true) :
    (syncStep T t false).1 = T ∧
    (syncStep T t false).2 = some SyncEvent.syncFailed ∧
    isSyncDue T tNext = true := by
  refine ⟨by simp [syncStep, hdue], by simp [syncStep, hdue], ?_⟩
  unfold isSyncDue subWrap U32 ntpUpdateInterval at *
  simp only [decide_eq_true_eq] at *
  omega

/-- Witness for C4: after a success at tick `0`, a failure at due tick
`600001` keeps `lastSync = 0`, emits the failure record, and the check at
the next tick `601001` is still due. -/
theorem syncStep_failure_no_backoff_witness :
    (syncStep 0 600001 false).1 = 0 ∧
    (syncStep 0 600001 false).2 = some SyncEvent.syncFailed ∧
    isSyncDue 0 601001 = true :=
  syncStep_failure_no_backoff 0 600001 601001 (by decide) (by decide) (by decide)
    ((isSyncDue_iff_interval_elapsed 0 600001 (by decide) (by decide)).mpr (by decide))

/-- Counterexample to claim C5: with the initial `lastSync = 0`, the
sync-due check is not true for every tick value — at tick `0` (and any
tick up to the interval) it is false. -/
theorem isSyncDue_initial_not_always_true :
    isSyncDue lastSyncInit 0 = false ∧ isSyncDue lastSyncInit 600000 = false := by
  decide

/-- Claim C5, amended: before any successful sync the last-sync timestamp
holds its initial value `0`, so the sync-due check at tick `t < 2^32` is
true exactly when `t > interval`; it is false throughout the first
interval after boot (the immediate first sync attempt is made
unconditionally in `setup`, not by this check). -/
theorem isSyncDue_initial_iff (t : Nat) (ht : t < U32) :
    isSyncDue lastSyncInit t = true ↔ ntpUpdateInterval < t := by
  unfold isSyncDue subWrap lastSyncInit U32 ntpUpdateInterval at *
  simp only [decide_eq_true_eq]
  omega

/-- Witness for the amended C5 at tick `600001`, the first due tick after
boot without a successful sync. -/
theorem isSyncDue_initial_iff_witness : isSyncDue lastSyncInit 600001 = true :=
  (isSyncDue_initial_iff 600001 (by decide)).mpr (by decide)

/-! ## Display formatting (`getDaySuffix`, `displayDateTime`, lines 69–182)

The two display buffers are 16-cell character lines; `memcpy(line + pos,
s, strlen(s))` is modelled by `writeAt`.  Decimal rendering of a
nonnegative `%d` field is `Nat.toDigits 10`, and `%02d` is `twoDigits`. -/

/-- `monthShortNames` (lines 69–71), indexed 0–11. -/
def monthShortNames : List String :=
  ["Jan", "Feb", "Mar", "Apr", "May", "Jun",
   "Jul", "Aug", "Sep", "Oct", "Nov", "Dec"]

/-- `weekdayShortNames` (lines 74–76), indexed 0–6, Sunday first. -/
def weekdayShortNames : List String :=
  ["Sun", "Mon", "Tue", "Wed", "Thu", "Fri", "Sat"]

/-- `getDaySuffix` (lines 79–87): `"th"` for 11–13, otherwise by the last
decimal digit. -/
def getDaySuffix (d : Nat) : String :=
  if 11 ≤ d ∧ d ≤ 13 then "th"
  else
    match d % 10 with
    | 1 => "st"
    | 2 => "nd"
    | 3 => "rd"
    | _ => "th"

/-- A run of `n` blank cells, as in the initialisers
`char dateLine[17] = "                "` (lines 152, 168). -/
def spacesL (n : Nat) : List Char :=
  List.replicate n ' '

/-- `memcpy(line + pos, s, s.length)`: overwrite `s.length` cells of
`line` starting at cell `pos`.  When `pos + s.length` exceeds the line
length the extra characters spill past the end (the unchecked overflow of
the C original shows up as a result longer than the line). -/
def writeAt (line : List Char) (pos : Nat) (s : List Char) : List Char :=
  line.take pos ++ s ++ line.drop (pos + s.length)

/-- The date token `"<Weekday> <Day><Suffix> <Month>"` built by
`snprintf(dateStr, …, "%s %d%s %s", …)` (line 149). -/
def dateToken (w d m : Nat) : List Char :=
  (weekdayShortNames.getD w "").toList ++ ' ' :: Nat.toDigits 10 d ++
    (getDaySuffix d).toList ++ ' ' :: (monthShortNames.getD m "").toList

/-- `formatDateLine`: centre the date token in the 16-cell line with left
padding `(16 - strlen(dateStr)) / 2` (lines 148–156). -/
def formatDateLine (w d m : Nat) : List Char :=
  let s := dateToken w d m
  let pad := (16 - s.length) / 2
  writeAt (spacesL 16) pad s

/-- The 12-hour hour value: `h % 12`, with `0` mapped to `12`
(lines 159–160). -/
def h12of (h : Nat) : Nat :=
  if h % 12 = 0 then 12 else h % 12

/-- `%02d`: two-digit zero-padded rendering of a value below 100
(minutes and seconds in line 162). -/
def twoDigits (n : Nat) : List Char :=
  if n < 10 then '0' :: Nat.toDigits 10 n else Nat.toDigits 10 n

/-- The time token `"<H>:<MM>:<SS>"` built by
`snprintf(timeNumStr, …, "%d:%02d:%02d", h12, min, s)` (line 162). -/
def timeToken (h mi s : Nat) : List Char :=
  Nat.toDigits 10 (h12of h) ++ ':' :: twoDigits mi ++ ':' :: twoDigits s

/-- `statusStr = (h >= 12) ? "PM" : "AM"` (line 165). -/
def meridiem (h : Nat) : List Char :=
  if 12 ≤ h then "PM".toList else "AM".toList

/-- `formatTimeLine`: place the time token at
`timeStart = (16 - timeLen - 3) / 2`, then the meridiem token at
`statusPos = timeStart + timeLen + 1` (lines 168–175). -/
def formatTimeLine (h mi s : Nat) : List Char :=
  let t := timeToken h mi s
  let timeStart := (16 - t.length - 3) / 2
  let statusPos := timeStart + t.length + 1
  writeAt (writeAt (spacesL 16) timeStart t) statusPos (meridiem h)

/-! ## Layout helper lemmas -/

/-- Writing `s` at cell `pos` of an all-blank `n`-cell line yields blanks,
then `s`, then the remaining blanks (none if the write spills over). -/
theorem writeAt_spacesL (n pos : Nat) (s : List Char) (hpos : pos ≤ n) :
    writeAt (spacesL n) pos s = spacesL pos ++ s ++ spacesL (n - (pos + s.length)) := by
  unfold writeAt spacesL
  rw [List.take_replicate, List.drop_replicate, Nat.min_eq_left hpos]

/-- A write that starts at or after the end of a prefix leaves the prefix
intact and acts on the rest of the line. -/
theorem writeAt_append_of_le (a b s : List Char) (pos : Nat) (h : a.length ≤ pos) :
    writeAt (a ++ b) pos s = a ++ writeAt b (pos - a.length) s := by
  unfold writeAt
  rw [List.take_append_eq_append_take, List.drop_append_eq_append_drop,
    List.take_of_length_le h, List.drop_eq_nil_of_le (by omega), List.nil_append]
  have harith : pos + s.length - a.length = pos - a.length + s.length := by omega
  rw [harith]
  simp [List.append_assoc]

/-- The day suffix is always two characters. -/
theorem getDaySuffix_length (d : Nat) : (getDaySuffix d).toList.length = 2 := by
  unfold getDaySuffix
  split
  · rfl
  · have h10 : d % 10 < 10 := Nat.mod_lt _ (by omega)
    generalize d % 10 = x at h10
    interval_cases x <;> rfl

/-- Decimal rendering of a value below 100 takes at most two characters. -/
theorem toDigits_length_le_two : ∀ n, n < 100 → (Nat.toDigits 10 n).length ≤ 2 := by
  decide

/-- `%02d` output is exactly two characters for values below 100. -/
theorem twoDigits_length : ∀ n, n < 100 → (twoDigits n).length = 2 := by
  decide

/-- The meridiem token is always two characters. -/
theorem meridiem_length (h : Nat) : (meridiem h).length = 2 := by
  unfold meridiem
  split <;> rfl

/-- The 12-hour value is between 1 and 12. -/
theorem h12of_bounds (h : Nat) : 1 ≤ h12of h ∧ h12of h ≤ 12 := by
  unfold h12of
  have h12 : h % 12 < 12 := Nat.mod_lt _ (by omega)
  split <;> omega

/-- The rendered 12-hour value takes one or two characters. -/
theorem h12_digits_length (h : Nat) :
    1 ≤ (Nat.toDigits 10 (h12of h)).length ∧ (Nat.toDigits 10 (h12of h)).length ≤ 2 := by
  have hb := h12of_bounds h
  have hall : ∀ x, x ≤ 12 → 1 ≤ x →
      1 ≤ (Nat.toDigits 10 x).length ∧ (Nat.toDigits 10 x).length ≤ 2 := by
    decide
  exact hall (h12of h) hb.2 hb.1

/-- Length of the date token: ten characters plus the rendered day. -/
theorem dateToken_length (w d m : Nat) (hw : w < 7) (hm : m < 12) :
    (dateToken w d m).length = (Nat.toDigits 10 d).length + 10 := by
  have hwn : ∀ x, x < 7 → (weekdayShortNames.getD x "").toList.length = 3 := by decide
  have hmn : ∀ x, x < 12 → (monthShortNames.getD x "").toList.length = 3 := by decide
  simp only [dateToken, List.length_append, List.length_cons]
  rw [hwn w hw, hmn m hm, getDaySuffix_length]
  omega

/-- Length of the time token: six characters plus the rendered hour. -/
theorem timeToken_length (h mi s : Nat) (hmi : mi < 60) (hs : s < 60) :
    (timeToken h mi s).length = (Nat.toDigits 10 (h12of h)).length + 6 := by
  simp [timeToken, twoDigits_length mi (by omega), twoDigits_length s (by omega)]

/-- The date line splits into left blanks, the token, and right blanks. -/
theorem formatDateLine_split (w d m : Nat) (hlen : (dateToken w d m).length ≤ 16) :
    formatDateLine w d m =
      spacesL ((16 - (dateToken w d m).length) / 2) ++ dateToken w d m ++
        spacesL (16 - ((16 - (dateToken w d m).length) / 2 + (dateToken w d m).length)) := by
  unfold formatDateLine
  exact writeAt_spacesL 16 _ _ (by omega)

/-- Two successive in-bounds writes into a blank 16-cell line — a token at
`p` and a two-character token at `p + t.length + 1` — yield blanks, the
token, one blank, the short token, and the remaining blanks. -/
theorem writeAt_time_layout (p : Nat) (t st : List Char) (hst : st.length = 2)
    (hp : p + t.length + 3 ≤ 16) :
    writeAt (writeAt (spacesL 16) p t) (p + t.length + 1) st =
      spacesL p ++ t ++ ' ' :: (st ++ spacesL (16 - (p + t.length) - 3)) := by
  rw [writeAt_spacesL 16 p t (by omega),
    writeAt_append_of_le (spacesL p ++ t) (spacesL (16 - (p + t.length))) st
      (p + t.length + 1) (by simp [spacesL])]
  have ha : (spacesL p ++ t).length = p + t.length := by simp [spacesL]
  rw [ha]
  have h1 : p + t.length + 1 - (p + t.length) = 1 := by omega
  rw [h1, writeAt_spacesL _ 1 st (by omega), hst]
  have h2 : 16 - (p + t.length) - (1 + 2) = 16 - (p + t.length) - 3 := by omega
  rw [h2]
  simp [spacesL, List.append_assoc]

/-- The time line splits into left blanks, the time token, one blank, the
meridiem token, and three right blanks. -/
theorem formatTimeLine_split (h mi s : Nat) (hmi : mi < 60) (hs : s < 60) :
    formatTimeLine h mi s =
      spacesL ((16 - (timeToken h mi s).length - 3) / 2) ++ timeToken h mi s ++
        ' ' :: (meridiem h ++
          spacesL (13 - ((16 - (timeToken h mi s).length - 3) / 2 + (timeToken h mi s).length))) := by
  have hd := h12_digits_length h
  have hL : (timeToken h mi s).length = (Nat.toDigits 10 (h12of h)).length + 6 :=
    timeToken_length h mi s hmi hs
  simp only [formatTimeLine]
  rw [writeAt_time_layout ((16 - (timeToken h mi s).length - 3) / 2) (timeToken h mi s)
    (meridiem h) (meridiem_length h) (by omega)]
  rw [show 16 - ((16 - (timeToken h mi s).length - 3) / 2 + (timeToken h mi s).length) - 3
      = 13 - ((16 - (timeToken h mi s).length - 3) / 2 + (timeToken h mi s).length) from by omega]

/-! ## Claims C6–C10 -/

/-- Claim C6: the ordinal suffix function returns `"th"` for days 11–13,
and otherwise `"st"`, `"nd"`, `"rd"`, or `"th"` according to `day % 10`
being 1, 2, 3, or anything else; in particular 1→st, 2→nd, 3→rd, 4→th,
11→th, 12→th, 13→th, 21→st, 22→nd, 23→rd. -/
theorem getDaySuffix_rule (d : Nat) :
    getDaySuffix d =
      (if 11 ≤ d ∧ d ≤ 13 then "th"
       else if d % 10 = 1 then "st"
       else if d % 10 = 2 then "nd"
       else if d % 10 = 3 then "rd"
       else "th") ∧
    getDaySuffix 1 = "st" ∧ getDaySuffix 2 = "nd" ∧ getDaySuffix 3 = "rd" ∧
    getDaySuffix 4 = "th" ∧ getDaySuffix 11 = "th" ∧ getDaySuffix 12 = "th" ∧
    getDaySuffix 13 = "th" ∧ getDaySuffix 21 = "st" ∧ getDaySuffix 22 = "nd" ∧
    getDaySuffix 23 = "rd" := by
  refine ⟨?_, by decide, by decide, by decide, by decide, by decide, by decide,
    by decide, by decide, by decide, by decide⟩
  by_cases hd : 11 ≤ d ∧ d ≤ 13
  · simp [getDaySuffix, hd]
  · simp only [getDaySuffix, if_neg hd]
    have h10 : d % 10 < 10 := Nat.mod_lt _ (by omega)
    obtain ⟨x, hx⟩ : ∃ x, d % 10 = x := ⟨d % 10, rfl⟩
    rw [hx] at h10 ⊢
    interval_cases x <;> rfl

/-- Claim C7: the date line centres the token
`"<Weekday> <Day><Suffix> <Month>"` in the 16-cell line with left padding
`(16 - tokenLength) / 2` (any odd remainder going to the right); in
particular Monday, day 15, July produces exactly `"  Mon 15th Jul  "`. -/
theorem formatDateLine_centering (w d m : Nat) (hlen : (dateToken w d m).length ≤ 16) :
    formatDateLine w d m =
      spacesL ((16 - (dateToken w d m).length) / 2) ++ dateToken w d m ++
        spacesL (16 - ((16 - (dateToken w d m).length) / 2 + (dateToken w d m).length)) ∧
    formatDateLine 1 15 6 = "  Mon 15th Jul  ".toList :=
  ⟨formatDateLine_split w d m hlen, by decide⟩

/-- Witness for C7 at Monday (index 1), day 15, July (index 6). -/
theorem formatDateLine_centering_witness :
    formatDateLine 1 15 6 = "  Mon 15th Jul  ".toList :=
  (formatDateLine_centering 1 15 6 (by decide)).2

/-- Claim C8: for every valid time, the time line places the `"H:MM:SS"`
token starting at cell `(16 - timeTokenLength - 3) / 2`, followed by
exactly one blank cell, followed by the 2-letter meridiem token
immediately after — the asymmetric reserved-3-cell layout, not symmetric
centring of the combined string. -/
theorem formatTimeLine_layout (h mi s : Nat) (hh : h < 24) (hmi : mi < 60) (hs : s < 60) :
    formatTimeLine h mi s =
      spacesL ((16 - (timeToken h mi s).length - 3) / 2) ++ timeToken h mi s ++
        ' ' :: (meridiem h ++
          spacesL (13 - ((16 - (timeToken h mi s).length - 3) / 2 + (timeToken h mi s).length))) :=
  formatTimeLine_split h mi s hmi hs

/-- Witness for C8 at 13:00:00: token `"1:00:00"` starts at cell 3, one
blank, then `"PM"`. -/
theorem formatTimeLine_layout_witness :
    formatTimeLine 13 0 0 = "   1:00:00 PM   ".toList :=
  (formatTimeLine_layout 13 0 0 (by decide) (by decide) (by decide)).trans (by decide)

/-- Claim C9: the displayed 12-hour value is `hour % 12` with `0` mapped
to `12` (so 0→12 and 13→1), and the meridiem is `"AM"` exactly when the
24-hour value is below 12, otherwise `"PM"`; in particular 00:05:09
yields `"12:05:09"` with `"AM"` and 13:00:00 yields `"1:00:00"` with
`"PM"`. -/
theorem twelveHour_conversion (h : Nat) :
    h12of h = (if h % 12 = 0 then 12 else h % 12) ∧
    meridiem h = (if h < 12 then "AM".toList else "PM".toList) ∧
    h12of 0 = 12 ∧ h12of 13 = 1 ∧
    timeToken 0 5 9 = "12:05:09".toList ∧ meridiem 0 = "AM".toList ∧
    timeToken 13 0 0 = "1:00:00".toList ∧ meridiem 13 = "PM".toList := by
  refine ⟨rfl, ?_, by decide, by decide, by decide, by decide, by decide, by decide⟩
  unfold meridiem
  rcases Nat.lt_or_ge h 12 with hh | hh
  · rw [if_neg (by omega), if_pos hh]
  · rw [if_pos hh, if_neg (by omega)]

/-- Claim C10: for every valid local calendar value the date token is at
most 12 characters and the time token at most 8, every buffer write stays
within the 16-cell line (offset plus token length never exceeds 16), and
both display lines are exactly 16 characters. -/
theorem display_lines_in_bounds (w d m h mi s : Nat) (hw : w < 7) (hd1 : 1 ≤ d)
    (hd31 : d ≤ 31) (hm : m < 12) (hh : h < 24) (hmi : mi < 60) (hs : s < 60) :
    (dateToken w d m).length ≤ 12 ∧
    (timeToken h mi s).length ≤ 8 ∧
    (16 - (dateToken w d m).length) / 2 + (dateToken w d m).length ≤ 16 ∧
    (16 - (timeToken h mi s).length - 3) / 2 + (timeToken h mi s).length + 3 ≤ 16 ∧
    (formatDateLine w d m).length = 16 ∧
    (formatTimeLine h mi s).length = 16 := by
  have hdig : (Nat.toDigits 10 d).length ≤ 2 := toDigits_length_le_two d (by omega)
  have hdate := dateToken_length w d m hw hm
  have htd := h12_digits_length h
  have htime := timeToken_length h mi s hmi hs
  have h1 : (dateToken w d m).length ≤ 12 := by omega
  have h2 : (timeToken h mi s).length ≤ 8 := by omega
  refine ⟨h1, h2, by omega, by omega, ?_, ?_⟩
  · rw [formatDateLine_split w d m (by omega)]
    simp [spacesL]
    omega
  · rw [formatTimeLine_split h mi s hmi hs]
    simp [spacesL, meridiem_length]
    omega

/-- Witness for C10 at Monday 15 July, 13:00:00. -/
theorem display_lines_in_bounds_witness :
    (dateToken 1 15 6).length ≤ 12 ∧
    (timeToken 13 0 0).length ≤ 8 ∧
    (16 - (dateToken 1 15 6).length) / 2 + (dateToken 1 15 6).length ≤ 16 ∧
    (16 - (timeToken 13 0 0).length - 3) / 2 + (timeToken 13 0 0).length + 3 ≤ 16 ∧
    (formatDateLine 1 15 6).length = 16 ∧
    (formatTimeLine 13 0 0).length = 16 :=
  display_lines_in_bounds 1 15 6 13 0 0 (by decide) (by decide) (by decide)
    (by decide) (by decide) (by decide) (by decide)
